import Mathlib

/-!
Shallow embedding of the PIDControllerResponse repository (Go).

Source files embedded:
* `simulation/simulation.go` — the dt-scaled PID controller, the generic
  time-stepping driver `Simulation`, and the first-order lag plant
  `DynamicResponse`.  Embedded parametrically over a linear ordered field
  (instantiated at `ℚ` for executable statements); Go `float64` arithmetic
  is modelled as exact field arithmetic.
* `main.go` — the second (no-`dt`) PID controller and the hard-coded
  electrical closed loop of `main()`.
* `simulationSytemElec.go` — the electrical reactive-power plant, over `ℝ`
  (it uses `math.Sqrt`, `math.Atan2`, `math.Pi`).  Go float division by a
  zero denominator yields a non-finite value (`±Inf`), which no real number
  represents; such divisions are modelled by the guarded `fdiv` returning
  `none`, so a `none` result marks a division by zero in the source.

Stateful Go methods are embedded by explicit state passing: `Compute`
returns the output together with the updated controller.
-/

namespace simulation

/-- The `PID` struct of package `simulation` (simulation/simulation.go). -/
structure PID (α : Type) where
  Kp : α
  Ki : α
  Kd : α
  integral : α
  previouserror_pid : α
deriving DecidableEq

/-- `NewPID` of package `simulation`: gains as given, `integral` and
`previouserror_pid` zero-initialised (Go zero values). -/
def NewPID {α : Type} [LinearOrderedField α] (kp ki kd : α) : PID α :=
  ⟨kp, ki, kd, 0, 0⟩

/-- `(pid *PID) Compute(setpoint, currentValue, dt)` of package `simulation`:
returns the output and the mutated controller state. -/
def PID.Compute {α : Type} [LinearOrderedField α]
    (pid : PID α) (setpoint currentValue dt : α) : α × PID α :=
  let error_pid := setpoint - currentValue
  let proportional := pid.Kp * error_pid
  let integral2 := pid.integral + error_pid * dt
  let integralTerm := pid.Ki * integral2
  let derivative := pid.Kd * (error_pid - pid.previouserror_pid) / dt
  let output := proportional + integralTerm + derivative
  (output, { pid with integral := integral2, previouserror_pid := error_pid })

/-- `DynamicResponse(un, yn, dt, Tau, K)` of simulation/simulation.go. -/
def DynamicResponse {α : Type} [LinearOrderedField α] (un yn dt Tau K : α) : α :=
  (dt / Tau) * (K * un - yn) + yn

/-- Go's `int(x)` conversion on a float: truncation toward zero. -/
def goInt {α : Type} [LinearOrderedField α] [FloorRing α] (x : α) : ℤ :=
  if 0 ≤ x then ⌊x⌋ else ⌈x⌉

/-- The body of the `for k := 1; k <= int(N)` loop of `Simulation`, run
`fuel` times from current time `t` and current last measure `y`; produces
the time and measure samples appended by those iterations (in order). -/
def simLoop {α : Type} [LinearOrderedField α] (Sp Tau K dt : α) :
    Nat → PID α → α → α → List α × List α
  | 0, _, _, _ => ([], [])
  | n + 1, pid, t, y =>
      let c := pid.Compute Sp y dt
      let ynn := DynamicResponse c.1 y dt Tau K
      let rest := simLoop Sp Tau K dt n c.2 (t + dt) ynn
      ((t + dt) :: rest.1, ynn :: rest.2)

/-- `Simulation(Sp, Tau, K, P, Ki, Kd, dt, N)` of simulation/simulation.go:
`measure` and `T` start as `[0]`, a fresh controller is built with
`NewPID(P, Ki, Kd)`, and the loop runs for `k = 1 .. int(N)`
(`(goInt N).toNat` iterations: none when `int(N) ≤ 0`). -/
def Simulation {α : Type} [LinearOrderedField α] [FloorRing α]
    (Sp Tau K P Ki Kd dt N : α) : List α × List α :=
  let r := simLoop Sp Tau K dt (goInt N).toNat (NewPID P Ki Kd) 0 0
  (0 :: r.1, 0 :: r.2)

/-- Driving the `simulation` controller through a sequence of
`(setpoint, currentValue)` calls at a fixed `dt`, collecting the outputs
and the final state. -/
def runCalls {α : Type} [LinearOrderedField α] (dt : α) :
    PID α → List (α × α) → List α × PID α
  | pid, [] => ([], pid)
  | pid, (sp, cv) :: rest =>
      let c := pid.Compute sp cv dt
      let r := runCalls dt c.2 rest
      (c.1 :: r.1, r.2)

end simulation

namespace Main

/-- The `PID` struct of package `main` (main.go); same fields as the
`simulation` one. -/
structure PID (α : Type) where
  Kp : α
  Ki : α
  Kd : α
  integral : α
  previouserror_pid : α
deriving DecidableEq

/-- `NewPID` of package `main`. -/
def NewPID {α : Type} [LinearOrderedField α] (kp ki kd : α) : PID α :=
  ⟨kp, ki, kd, 0, 0⟩

/-- `(pid *PID) Compute(setpoint, currentValue)` of main.go — the historical
call shape without `dt` scaling. -/
def PID.Compute {α : Type} [LinearOrderedField α]
    (pid : PID α) (setpoint currentValue : α) : α × PID α :=
  let error_pid := setpoint - currentValue
  let proportional := pid.Kp * error_pid
  let integral2 := pid.integral + error_pid
  let integralTerm := pid.Ki * integral2
  let derivative := pid.Kd * (error_pid - pid.previouserror_pid)
  let output := proportional + integralTerm + derivative
  (output, { pid with integral := integral2, previouserror_pid := error_pid })

/-- Field-wise identification of the two structurally identical PID structs. -/
def PID.toSim {α : Type} (p : PID α) : simulation.PID α :=
  ⟨p.Kp, p.Ki, p.Kd, p.integral, p.previouserror_pid⟩

/-- Driving the `main` controller through a sequence of
`(setpoint, currentValue)` calls, collecting the outputs and final state. -/
def runCalls {α : Type} [LinearOrderedField α] :
    PID α → List (α × α) → List α × PID α
  | pid, [] => ([], pid)
  | pid, (sp, cv) :: rest =>
      let c := pid.Compute sp cv
      let r := runCalls c.2 rest
      (c.1 :: r.1, r.2)

end Main

/-- Go float division `a / b`, modelled partially: a zero denominator yields
a non-finite IEEE value (`±Inf`), which has no real counterpart, so it is
modelled as `none`. -/
noncomputable def fdiv (a b : ℝ) : Option ℝ :=
  if b = 0 then none else some (a / b)

/-- `math.Atan2(y, x)` on finite inputs (the two-argument arctangent). -/
noncomputable def atan2 (y x : ℝ) : ℝ :=
  if 0 < x then Real.arctan (y / x)
  else if x < 0 then
    (if 0 ≤ y then Real.arctan (y / x) + Real.pi
     else Real.arctan (y / x) - Real.pi)
  else
    (if 0 < y then Real.pi / 2
     else if y < 0 then -(Real.pi / 2)
     else 0)

/-- The `ElectricalSystem` struct of simulationSytemElec.go. -/
structure ElectricalSystem where
  L : ℝ
  C : ℝ
  R : ℝ
  f : ℝ
  UPoc : ℝ

/-- `(sys *ElectricalSystem) ComputeImpedance()`: note the source computes
`X_C := 1 / (2 * math.Pi * sys.f * sys.C)` with no `C == 0` guard. -/
noncomputable def ElectricalSystem.ComputeImpedance (sys : ElectricalSystem) :
    Option (ℝ × ℝ) :=
  let X_L := 2 * Real.pi * sys.f * sys.L
  (fdiv 1 (2 * Real.pi * sys.f * sys.C)).map fun X_C =>
    (Real.sqrt (sys.R ^ 2 + (X_L - X_C) ^ 2), atan2 (X_L - X_C) sys.R)

/-- `(sys *ElectricalSystem) ComputeReactivePowerSys(I)`: here the source
does guard `C == 0`, setting `X_C = 0` in that case. -/
noncomputable def ElectricalSystem.ComputeReactivePowerSys
    (sys : ElectricalSystem) (I : ℝ) : Option ℝ :=
  let X_L := 2 * Real.pi * sys.f * sys.L
  let xc : Option ℝ :=
    if sys.C = 0 then some 0 else fdiv 1 (2 * Real.pi * sys.f * sys.C)
  xc.map fun X_C => I ^ 2 * X_L - I ^ 2 * X_C

/-- `(sys *ElectricalSystem) ComputeS(Pond, Qond)` (the `fmt.Println` is
I/O glue and not modelled). -/
noncomputable def ElectricalSystem.ComputeS (sys : ElectricalSystem)
    (Pond Qond : ℝ) : ℝ :=
  Real.sqrt (Pond ^ 2 + Qond ^ 2)

/-- `(sys *ElectricalSystem) ComputeQPoc(Pond, Qond)`:
`S := sys.ComputeS(...)`; `I := S / sys.UPoc`; `Qsys := ...`;
`Qpoc := Qond + Qsys`. -/
noncomputable def ElectricalSystem.ComputeQPoc (sys : ElectricalSystem)
    (Pond Qond : ℝ) : Option ℝ :=
  (fdiv (sys.ComputeS Pond Qond) sys.UPoc).bind fun I =>
    (sys.ComputeReactivePowerSys I).map fun Qsys => Qond + Qsys

namespace Main

/-- `Simulation(Pond, Qond)` of simulationSytemElec.go (package `main`):
the hard-coded reference system `L=2.8e-3, C=0, R=0, f=50, UPoc=6700`. -/
noncomputable def Simulation (Pond Qond : ℝ) : Option ℝ :=
  let sys : ElectricalSystem :=
    { L := 2.8e-3, C := 0, R := 0, f := 50, UPoc := 6700 }
  sys.ComputeQPoc Pond Qond

/-- The body of the `for t := 1; t < numIterations` loop of `main()`, run
`fuel` times from current time `t` and current last `QPoc` value `qpoc`;
produces the `T`, `Qond` and `QPoc` samples appended by those iterations. -/
noncomputable def mainLoop (dt : ℝ) :
    Nat → PID ℝ → ℝ → ℝ → Option (List ℝ × List ℝ × List ℝ)
  | 0, _, _, _ => some ([], [], [])
  | n + 1, pid, t, qpoc =>
      let c := pid.Compute 0 qpoc
      (Simulation 1000000 c.1).bind fun q =>
        (mainLoop dt n c.2 (t + dt) q).map fun r =>
          ((t + dt) :: r.1, c.1 :: r.2.1, q :: r.2.2)

/-- `main()` of main.go, parametrised by its iteration bound
`numIterations` (hard-coded to `1000` in the source); `dt = 0.001`,
`QPoc_ref = 0`, `Pond = 1e6`, fresh `NewPID(0.01, 0.1, 0)`; initial
samples `T = [0]`, `Qond = [0]`, `QPoc = [Simulation(Pond, 0)]`; the loop
runs `numIterations - 1` times.  Returns `(T, Qond, QPoc)`. -/
noncomputable def mainSim (numIterations : Nat) :
    Option (List ℝ × List ℝ × List ℝ) :=
  (Simulation 1000000 0).bind fun q0 =>
    (mainLoop 0.001 (numIterations - 1) (NewPID 0.01 0.1 0) 0 q0).map fun r =>
      (0 :: r.1, 0 :: r.2.1, q0 :: r.2.2)

/-- `main()` as written, with `numIterations := 1000`. -/
noncomputable def mainRun : Option (List ℝ × List ℝ × List ℝ) :=
  mainSim 1000

end Main

/-! ## Helper lemmas about the generic driver loop -/

lemma simLoop_length {α : Type} [LinearOrderedField α] (Sp Tau K dt : α) :
    ∀ (n : Nat) (pid : simulation.PID α) (t y : α),
      (simulation.simLoop Sp Tau K dt n pid t y).1.length = n
      ∧ (simulation.simLoop Sp Tau K dt n pid t y).2.length = n := by
  intro n
  induction n with
  | zero => intro pid t y; simp [simulation.simLoop]
  | succ n ih => intro pid t y; simp [simulation.simLoop, ih]

lemma Simulation_length {α : Type} [LinearOrderedField α] [FloorRing α]
    (Sp Tau K P Ki Kd dt N : α) :
    (simulation.Simulation Sp Tau K P Ki Kd dt N).1.length
        = (simulation.goInt N).toNat + 1
    ∧ (simulation.Simulation Sp Tau K P Ki Kd dt N).2.length
        = (simulation.goInt N).toNat + 1 := by
  simp [simulation.Simulation, simLoop_length]

lemma simLoop_fst_closed {α : Type} [LinearOrderedField α] (Sp Tau K dt : α) :
    ∀ (n : Nat) (pid : simulation.PID α) (t y : α),
      (simulation.simLoop Sp Tau K dt n pid t y).1
        = (List.range n).map fun (k : Nat) => t + ((k : α) + 1) * dt := by
  intro n
  induction n with
  | zero => intro pid t y; simp [simulation.simLoop]
  | succ n ih =>
      intro pid t y
      simp only [simulation.simLoop, ih, List.range_succ_eq_map, List.map_cons,
        List.map_map]
      congr 1
      · push_cast
        ring
      · apply List.map_congr_left
        intro k _
        simp only [Function.comp_apply]
        push_cast
        ring

lemma goInt_toNat_of_lt_one {N : ℚ} (h : N < 1) : (simulation.goInt N).toNat = 0 := by
  unfold simulation.goInt
  rcases le_or_lt 0 N with h0 | h0
  · rw [if_pos h0]
    have : ⌊N⌋ = 0 := by
      rw [Int.floor_eq_zero_iff]
      exact ⟨h0, h⟩
    simp [this]
  · rw [if_neg (not_le.mpr h0)]
    have : ⌈N⌉ ≤ 0 := Int.ceil_le.mpr (by exact_mod_cast h0.le)
    omega

lemma goInt_of_nonneg {N : ℚ} (h : 0 ≤ N) : simulation.goInt N = ⌊N⌋ := by
  unfold simulation.goInt
  rw [if_pos h]

lemma Simulation_single_of_lt_one (Sp Tau K P Ki Kd dt : ℚ) {N : ℚ}
    (h : N < 1) : simulation.Simulation Sp Tau K P Ki Kd dt N = ([0], [0]) := by
  simp [simulation.Simulation, goInt_toNat_of_lt_one h, simulation.simLoop]

lemma Simulation_fst_getD (Sp Tau K P Ki Kd dt N : ℚ) :
    ∀ i : Nat, i ≤ (simulation.goInt N).toNat →
      (simulation.Simulation Sp Tau K P Ki Kd dt N).1.getD i 0 = (i : ℚ) * dt := by
  intro i hi
  simp only [simulation.Simulation, simLoop_fst_closed]
  cases i with
  | zero => simp
  | succ i =>
      simp only [List.getD_cons_succ]
      have hlt : i < (simulation.goInt N).toNat := by omega
      rw [List.getD_eq_getElem?_getD, List.getElem?_map, List.getElem?_range hlt]
      simp only [Option.map_some', Option.getD_some]
      push_cast
      ring

/-! ## Helper lemmas about the electrical closed loop of `main()` -/

lemma elecSimulation_isSome (P Q : ℝ) : (Main.Simulation P Q).isSome = true := by
  simp only [Main.Simulation, ElectricalSystem.ComputeQPoc,
    ElectricalSystem.ComputeReactivePowerSys, ElectricalSystem.ComputeS, fdiv]
  norm_num

lemma mainLoop_lengths (dt : ℝ) :
    ∀ (n : Nat) (pid : Main.PID ℝ) (t q : ℝ),
      ∃ r, Main.mainLoop dt n pid t q = some r
        ∧ r.1.length = n ∧ r.2.1.length = n ∧ r.2.2.length = n := by
  intro n
  induction n with
  | zero => intro pid t q; exact ⟨([], [], []), rfl, rfl, rfl, rfl⟩
  | succ n ih =>
      intro pid t q
      obtain ⟨v, hv⟩ :=
        Option.isSome_iff_exists.mp (elecSimulation_isSome 1000000 (pid.Compute 0 q).1)
      obtain ⟨r, hr, h1, h2, h3⟩ := ih (pid.Compute 0 q).2 (t + dt) v
      refine ⟨((t + dt) :: r.1, (pid.Compute 0 q).1 :: r.2.1, v :: r.2.2), ?_, ?_, ?_, ?_⟩
      · simp [Main.mainLoop, hv, hr]
      · simp [h1]
      · simp [h2]
      · simp [h3]

lemma mainSim_lengths (n : Nat) :
    ∃ r, Main.mainSim n = some r
      ∧ r.1.length = 1 + (n - 1) ∧ r.2.1.length = 1 + (n - 1)
      ∧ r.2.2.length = 1 + (n - 1) := by
  obtain ⟨q0, hq0⟩ := Option.isSome_iff_exists.mp (elecSimulation_isSome 1000000 0)
  obtain ⟨r, hr, h1, h2, h3⟩ :=
    mainLoop_lengths 0.001 (n - 1) (Main.NewPID 0.01 0.1 0) 0 q0
  refine ⟨(0 :: r.1, 0 :: r.2.1, q0 :: r.2.2), ?_, ?_, ?_, ?_⟩
  · simp [Main.mainSim, hq0, hr]
  · simp [h1, Nat.add_comm]
  · simp [h2, Nat.add_comm]
  · simp [h3, Nat.add_comm]

/-! ## Claims about the PID controller and lag plant -/

/-- C1: a call `Compute(setpoint, currentValue, dt)` with `dt > 0` on a
controller with gains `Kp, Ki, Kd` and state `(integral, previous_error)`
returns `Kp*e + Ki*(integral + e*dt) + Kd*(e - previous_error)/dt` with
`e = setpoint - currentValue`, and leaves the post-state with
`integral' = integral + e*dt` and `previous_error' = e`; the update of
`previous_error` is unconditional (the statement holds for every `Kd`,
including `Kd = 0`). -/
theorem c1_compute_contract (Kp Ki Kd integ prev sp cv dt : ℚ)
    (hdt : 0 < dt) :
    ((simulation.PID.mk Kp Ki Kd integ prev).Compute sp cv dt).1
      = Kp * (sp - cv) + Ki * (integ + (sp - cv) * dt)
        + Kd * ((sp - cv) - prev) / dt
    ∧ ((simulation.PID.mk Kp Ki Kd integ prev).Compute sp cv dt).2
      = simulation.PID.mk Kp Ki Kd (integ + (sp - cv) * dt) (sp - cv) := by
  constructor
  · simp [simulation.PID.Compute]
  · simp [simulation.PID.Compute]

/-- Witness for C1 at `Kp=1, Ki=2, Kd=0, integral=4, previous_error=5,
setpoint=6, currentValue=7, dt=2` (note `Kd = 0`: the state update still
happens). -/
theorem c1_witness :
    (0 : ℚ) < 2
    ∧ (((simulation.PID.mk (1 : ℚ) 2 0 4 5).Compute 6 7 2).1
        = 1 * (6 - 7) + 2 * (4 + (6 - 7) * 2) + 0 * ((6 - 7) - 5) / 2
      ∧ ((simulation.PID.mk (1 : ℚ) 2 0 4 5).Compute 6 7 2).2
        = simulation.PID.mk 1 2 0 (4 + (6 - 7) * 2) (6 - 7)) :=
  ⟨by norm_num, c1_compute_contract 1 2 0 4 5 6 7 2 (by norm_num)⟩

/-- C3: for `Tau ≠ 0` the lag plant step `DynamicResponse` returns
`y_prev + (dt / Tau) * (K * u - y_prev)`, the forward-Euler discretization
of `Tau * dy/dt = K*u - y`. -/
theorem c3_dynamic_response (u yPrev dt Tau K : ℚ) (hTau : Tau ≠ 0) :
    simulation.DynamicResponse u yPrev dt Tau K
      = yPrev + (dt / Tau) * (K * u - yPrev) := by
  unfold simulation.DynamicResponse
  ring

/-- Witness for C3 at `u=2, y_prev=3, dt=4, Tau=1, K=5`. -/
theorem c3_witness :
    (1 : ℚ) ≠ 0
    ∧ simulation.DynamicResponse (2 : ℚ) 3 4 1 5 = 3 + (4 / 1) * (5 * 2 - 3) :=
  ⟨by norm_num, c3_dynamic_response 2 3 4 1 5 (by norm_num)⟩

lemma compute_dt1 (p : Main.PID ℚ) (sp cv : ℚ) :
    (p.Compute sp cv).1 = (p.toSim.Compute sp cv 1).1
    ∧ (p.Compute sp cv).2.toSim = (p.toSim.Compute sp cv 1).2 := by
  cases p
  simp [Main.PID.Compute, simulation.PID.Compute, Main.PID.toSim]

/-- C5: the no-`dt` `Compute` of the `main`-package PID is exactly the
`dt = 1` case of the `simulation`-package PID: from any equal starting
state (same gains, same `integral`, same `previous_error`, expressed by
the field-wise identification `toSim`) and along any sequence of
`(setpoint, currentValue)` calls, the two controllers return the same
outputs and end in the same state. -/
theorem c5_dt1_equivalence (p : Main.PID ℚ) (calls : List (ℚ × ℚ)) :
    (Main.runCalls p calls).1 = (simulation.runCalls 1 p.toSim calls).1
    ∧ (Main.runCalls p calls).2.toSim = (simulation.runCalls 1 p.toSim calls).2 := by
  induction calls generalizing p with
  | nil => simp [Main.runCalls, simulation.runCalls]
  | cons hd tl ih =>
      obtain ⟨sp, cv⟩ := hd
      have h := compute_dt1 p sp cv
      have ht := ih (p.Compute sp cv).2
      simp only [Main.runCalls, simulation.runCalls]
      rw [← h.1, ← h.2]
      exact ⟨by rw [ht.1], by rw [ht.2]⟩

/-- C9: the driver is deterministic and idempotent: `Simulation` is a pure
function of the configuration (the Go loop reads no clock and no random
source, and each invocation constructs its own fresh controller via
`NewPID` inside `Simulation`), so two invocations with identical arguments
agree, element-wise, on both the time axis and the output sequence. -/
theorem c9_deterministic (Sp Tau K P Ki Kd dt N : ℚ) :
    simulation.Simulation Sp Tau K P Ki Kd dt N
      = simulation.Simulation Sp Tau K P Ki Kd dt N
    ∧ ∀ i : Nat,
        (simulation.Simulation Sp Tau K P Ki Kd dt N).1.getD i 0
          = (simulation.Simulation Sp Tau K P Ki Kd dt N).1.getD i 0
        ∧ (simulation.Simulation Sp Tau K P Ki Kd dt N).2.getD i 0
          = (simulation.Simulation Sp Tau K P Ki Kd dt N).2.getD i 0 :=
  ⟨rfl, fun _ => ⟨rfl, rfl⟩⟩

/-- C10: `Simulation` receives `N` as a float and runs `int(N)` loop
iterations, `int` truncating toward zero (`goInt`); every `N < 1` —
negative or fractional — yields the single-sample trajectory `([0], [0])`
(and no error: the function is total), and for `N ≥ 1` the fractional
part is discarded: the run equals the run at `⌊N⌋`. -/
theorem c10_truncation (Sp Tau K P Ki Kd dt N : ℚ) :
    (simulation.Simulation Sp Tau K P Ki Kd dt N).2.length
        = (simulation.goInt N).toNat + 1
    ∧ (N < 1 → simulation.Simulation Sp Tau K P Ki Kd dt N = ([0], [0]))
    ∧ (1 ≤ N → simulation.Simulation Sp Tau K P Ki Kd dt N
        = simulation.Simulation Sp Tau K P Ki Kd dt ((⌊N⌋ : ℤ) : ℚ)) := by
  refine ⟨(Simulation_length Sp Tau K P Ki Kd dt N).2, ?_, ?_⟩
  · intro h
    have h0 := goInt_toNat_of_lt_one h
    simp [simulation.Simulation, h0, simulation.simLoop]
  · intro h
    have h0 : (0 : ℚ) ≤ N := le_trans zero_le_one h
    have h1 : simulation.goInt N = ⌊N⌋ := goInt_of_nonneg h0
    have h2 : simulation.goInt ((⌊N⌋ : ℤ) : ℚ) = ⌊N⌋ := by
      rw [goInt_of_nonneg (by exact_mod_cast Int.floor_nonneg.mpr h0)]
      exact Int.floor_intCast _
    simp [simulation.Simulation, h1, h2]

/-- Witness for C10: at `N = 1/2 < 1` the trajectory is `([0], [0])`, and
at `N = 5/2 ≥ 1` the run equals the run at `N = 2`. -/
theorem c10_witness :
    simulation.Simulation (1 : ℚ) 1 1 1 1 1 1 (1 / 2) = ([0], [0])
    ∧ simulation.Simulation (1 : ℚ) 1 1 1 1 1 1 (5 / 2)
        = simulation.Simulation (1 : ℚ) 1 1 1 1 1 1 2 := by
  constructor
  · exact (c10_truncation 1 1 1 1 1 1 1 (1 / 2)).2.1 (by norm_num)
  · have h := (c10_truncation 1 1 1 1 1 1 1 (5 / 2)).2.2 (by norm_num)
    have hf : (⌊(5 / 2 : ℚ)⌋ : ℤ) = 2 := by norm_num [Int.floor_eq_iff]
    rw [h, hf]
    norm_num

/-- C2 counterexample: the electrical closed loop of `main()` (with its
configured `numIterations = 1000`) returns three sequences of length
`1000 = numIterations`, not `numIterations + 1`: its loop
`for t := 1; t < numIterations` performs only `numIterations - 1`
iterations beyond the initial sample, unlike the generic driver's
`for k := 1; k <= int(N)`. -/
theorem c2_counterexample :
    Main.mainRun.map (fun r => (r.1.length, r.2.1.length, r.2.2.length))
      = some (1000, 1000, 1000) := by
  obtain ⟨r, hr, h1, h2, h3⟩ := mainSim_lengths 1000
  rw [Main.mainRun, hr]
  simp [h1, h2, h3]

/-- C2 (amended): the generic PID+lag driver returns two equal-length
sequences of length `int(N) + 1` (so `N = 0` yields exactly one sample),
starting at the initial sample `(t = 0, y = 0)`, with consecutive time
values differing by exactly `dt`.  The electrical closed loop of `main()`
does not share this shape: for every iteration bound `numIterations` it
returns three equal-length sequences of length `1 + (numIterations - 1)`
(`numIterations` samples when `numIterations ≥ 1`), not
`numIterations + 1`. -/
theorem c2_driver_shapes :
    (∀ Sp Tau K P Ki Kd dt N : ℚ,
      (simulation.Simulation Sp Tau K P Ki Kd dt N).1.length
          = (simulation.goInt N).toNat + 1
      ∧ (simulation.Simulation Sp Tau K P Ki Kd dt N).2.length
          = (simulation.goInt N).toNat + 1
      ∧ (simulation.Simulation Sp Tau K P Ki Kd dt N).1.getD 0 0 = 0
      ∧ (simulation.Simulation Sp Tau K P Ki Kd dt N).2.getD 0 0 = 0
      ∧ ∀ i : Nat, i < (simulation.goInt N).toNat →
          (simulation.Simulation Sp Tau K P Ki Kd dt N).1.getD (i + 1) 0
            - (simulation.Simulation Sp Tau K P Ki Kd dt N).1.getD i 0 = dt)
    ∧ ∀ n : Nat,
        (Main.mainSim n).map (fun r => (r.1.length, r.2.1.length, r.2.2.length))
          = some (1 + (n - 1), 1 + (n - 1), 1 + (n - 1)) := by
  constructor
  · intro Sp Tau K P Ki Kd dt N
    refine ⟨(Simulation_length Sp Tau K P Ki Kd dt N).1,
      (Simulation_length Sp Tau K P Ki Kd dt N).2, ?_, ?_, ?_⟩
    · simp [simulation.Simulation]
    · simp [simulation.Simulation]
    · intro i hi
      rw [Simulation_fst_getD Sp Tau K P Ki Kd dt N (i + 1) (by omega),
        Simulation_fst_getD Sp Tau K P Ki Kd dt N i (by omega)]
      push_cast
      ring
  · intro n
    obtain ⟨r, hr, h1, h2, h3⟩ := mainSim_lengths n
    rw [hr]
    simp [h1, h2, h3]

/-- Witness for C2 (amended) at the configuration
`Sp=1, Tau=1, K=1, Kp=Ki=Kd=0, dt=1, N=1` and step index `i = 0`. -/
theorem c2_witness :
    (simulation.Simulation (1 : ℚ) 1 1 0 0 0 1 1).1.length
        = (simulation.goInt (1 : ℚ)).toNat + 1
    ∧ (simulation.Simulation (1 : ℚ) 1 1 0 0 0 1 1).1.getD 1 0
        - (simulation.Simulation (1 : ℚ) 1 1 0 0 0 1 1).1.getD 0 0 = 1 := by
  have h := c2_driver_shapes.1 1 1 1 0 0 0 1 1
  refine ⟨h.1, h.2.2.2.2 0 ?_⟩
  norm_num [simulation.goInt]

/-- C4 counterexample: with `dt = 0` (and `N = 1`) the driver raises
nothing and returns a full two-sample trajectory — the loop iteration
runs despite `dt ≤ 0` (in Go the values involve `NaN`/`Inf` from the
division by `dt`, but a trajectory of length `int(N) + 1` is returned,
contradicting "no trajectory, not even a partial one"). -/
theorem c4_counterexample :
    (simulation.Simulation (1 : ℚ) 1 1 1 1 1 0 1).1.length = 2
    ∧ (simulation.Simulation (1 : ℚ) 1 1 1 1 1 0 1).2.length = 2 := by
  have h := Simulation_length (1 : ℚ) 1 1 1 1 1 0 1
  have hg : (simulation.goInt (1 : ℚ)).toNat = 1 := by
    norm_num [simulation.goInt]
  rw [hg] at h
  exact h

/-- C4 (amended): the source performs no configuration validation and has
no ConfigurationError: for every configuration — including `dt ≤ 0` and
`Tau = 0` — `Simulation` runs its loop and returns a (nonempty) trajectory
of `int(N) + 1` samples per sequence; a negative `N` merely makes the loop
run zero times, returning the single-sample trajectory `([0], [0])` rather
than raising an error. -/
theorem c4_no_validation (Sp Tau K P Ki Kd dt N : ℚ) :
    (simulation.Simulation Sp Tau K P Ki Kd dt N).1 ≠ []
    ∧ (simulation.Simulation Sp Tau K P Ki Kd dt N).1.length
        = (simulation.goInt N).toNat + 1
    ∧ (simulation.Simulation Sp Tau K P Ki Kd dt N).2.length
        = (simulation.goInt N).toNat + 1
    ∧ (N < 0 → simulation.Simulation Sp Tau K P Ki Kd dt N = ([0], [0])) := by
  refine ⟨?_, (Simulation_length Sp Tau K P Ki Kd dt N).1,
    (Simulation_length Sp Tau K P Ki Kd dt N).2, ?_⟩
  · simp [simulation.Simulation]
  · intro h
    exact Simulation_single_of_lt_one Sp Tau K P Ki Kd dt (h.trans zero_lt_one)

/-- Witness for C4 (amended) at `dt = 0, N = -1`: the run returns the
single-sample trajectory instead of raising. -/
theorem c4_witness :
    simulation.Simulation (1 : ℚ) 1 1 1 1 1 0 (-1) = ([0], [0]) :=
  (c4_no_validation 1 1 1 1 1 1 0 (-1)).2.2.2 (by norm_num)

lemma pid_zero_compute (integ prev sp cv dt : ℚ) :
    (simulation.PID.mk (0 : ℚ) 0 0 integ prev).Compute sp cv dt
      = (0, simulation.PID.mk 0 0 0 (integ + (sp - cv) * dt) (sp - cv)) := by
  simp [simulation.PID.Compute]

lemma simLoop_zero_gains (Sp Tau K dt : ℚ) :
    ∀ (n : Nat) (integ prev t : ℚ),
      (simulation.simLoop Sp Tau K dt n (simulation.PID.mk 0 0 0 integ prev) t 0).2
        = List.replicate n 0 := by
  intro n
  induction n with
  | zero => intro integ prev t; simp [simulation.simLoop]
  | succ n ih =>
      intro integ prev t
      have h := pid_zero_compute integ prev Sp 0 dt
      have hy : simulation.DynamicResponse (0 : ℚ) 0 dt Tau K = 0 := by
        simp [simulation.DynamicResponse]
      simp only [simulation.simLoop, h, hy, ih, List.replicate_succ]

/-- C8: with zero gains `Kp = Ki = Kd = 0`, `Compute` returns `0` from any
controller state for any setpoint, current value and `dt > 0`; and the
lag-plant trajectory from `y[0] = 0` (with `Tau ≠ 0`, the plant's domain)
is identically zero: the output sequence is `int(N) + 1` zeros. -/
theorem c8_zero_gain (integ prev sp cv dt Sp Tau K N : ℚ)
    (hdt : 0 < dt) (hTau : Tau ≠ 0) :
    ((simulation.PID.mk (0 : ℚ) 0 0 integ prev).Compute sp cv dt).1 = 0
    ∧ (simulation.Simulation Sp Tau K 0 0 0 dt N).2
        = List.replicate ((simulation.goInt N).toNat + 1) 0 := by
  constructor
  · rw [pid_zero_compute]
  · have h : simulation.NewPID (0 : ℚ) 0 0 = simulation.PID.mk 0 0 0 0 0 := rfl
    simp [simulation.Simulation, h, simLoop_zero_gains, List.replicate_succ]

/-- Witness for C8 at state `(integral, previous_error) = (1, 2)`,
`setpoint = 3, currentValue = 4, dt = 1 > 0`, and the run
`Sp = 5, Tau = 1 ≠ 0, K = 2, N = 2`. -/
theorem c8_witness :
    ((simulation.PID.mk (0 : ℚ) 0 0 1 2).Compute 3 4 1).1 = 0
    ∧ (simulation.Simulation (5 : ℚ) 1 2 0 0 0 1 2).2
        = List.replicate ((simulation.goInt (2 : ℚ)).toNat + 1) 0 :=
  c8_zero_gain 1 2 3 4 1 5 1 2 2 (by norm_num) (by norm_num)

/-! ## Claims about the electrical plant -/

/-- C6 counterexample: `ComputeImpedance` has no `C == 0` branch: on the
system `L=1, C=0, R=0, f=1, U_poc=1` (which satisfies `f > 0`) it divides
by zero computing `X_C = 1/(2·π·f·0)` (IEEE `+Inf` in Go, modelled `none`),
so it does not return the pair the claim specifies (`X_C = 0`,
`Z = sqrt(R² + X_L²)`). -/
theorem c6_counterexample :
    (ElectricalSystem.mk 1 0 0 1 1).ComputeImpedance = none := by
  simp [ElectricalSystem.ComputeImpedance, fdiv]

/-- C6 (amended): for every system with `f > 0` and `C ≠ 0`,
`ComputeImpedance` returns `Z = sqrt(R² + (X_L - X_C)²)` and
`theta = atan2(X_L - X_C, R)` with `X_L = 2πfL` and `X_C = 1/(2πfC)`;
but the `C = 0` case is not guarded in `ComputeImpedance` (the guard
exists only in `ComputeReactivePowerSys`): with `C = 0` its `X_C`
computation divides by zero and no value per the stated formulas is
produced. -/
theorem c6_impedance (sys : ElectricalSystem) (hf : 0 < sys.f) :
    (sys.C ≠ 0 → sys.ComputeImpedance
        = some (Real.sqrt (sys.R ^ 2
              + (2 * Real.pi * sys.f * sys.L
                  - 1 / (2 * Real.pi * sys.f * sys.C)) ^ 2),
            atan2 (2 * Real.pi * sys.f * sys.L
                  - 1 / (2 * Real.pi * sys.f * sys.C)) sys.R))
    ∧ (sys.C = 0 → sys.ComputeImpedance = none) := by
  constructor
  · intro hC
    have hden : 2 * Real.pi * sys.f * sys.C ≠ 0 :=
      mul_ne_zero (mul_ne_zero (mul_ne_zero two_ne_zero Real.pi_ne_zero)
        (ne_of_gt hf)) hC
    simp [ElectricalSystem.ComputeImpedance, fdiv, hden]
  · intro hC
    simp [ElectricalSystem.ComputeImpedance, fdiv, hC]

/-- Witness for C6 (amended) on the system `L=1, C=1, R=0, f=1, U_poc=1`
(`f > 0`, `C ≠ 0`). -/
theorem c6_witness :
    (ElectricalSystem.mk 1 1 0 1 1).ComputeImpedance
      = some (Real.sqrt ((0 : ℝ) ^ 2
            + (2 * Real.pi * 1 * 1 - 1 / (2 * Real.pi * 1 * 1)) ^ 2),
          atan2 (2 * Real.pi * 1 * 1 - 1 / (2 * Real.pi * 1 * 1)) 0) := by
  have h := (c6_impedance (ElectricalSystem.mk 1 1 0 1 1) (by norm_num)).1
    (by norm_num)
  simpa using h

/-- C7 counterexample: on the system `L=0, C=1, R=0, f=0, U_poc=1` (which
satisfies `U_poc ≠ 0`) with `P = 0, Q_commanded = 0`, `ComputeQPoc` hits a
division by zero in `X_C = 1/(2·π·0·1)` (in Go the result is `NaN`, since
`I = 0` and `0 * Inf = NaN`), so it does not equal the claimed
`Q_commanded + Q_sys` real value. -/
theorem c7_counterexample :
    (ElectricalSystem.mk 0 1 0 0 1).ComputeQPoc 0 0 = none := by
  simp [ElectricalSystem.ComputeQPoc, ElectricalSystem.ComputeS,
    ElectricalSystem.ComputeReactivePowerSys, fdiv]

/-- C7 (amended): for every `P`, `Q_commanded` and every system with
`U_poc ≠ 0` and additionally `f ≠ 0` whenever `C ≠ 0` (the spec's own
requirement on the electrical plant), `ComputeQPoc(P, Q_commanded)` equals
`Q_commanded + Q_sys` with `S = sqrt(P² + Q_commanded²)`, `I = S / U_poc`
and `Q_sys = I²·X_L - I²·X_C`, where `X_L = 2πfL` and `X_C = 1/(2πfC)` if
`C ≠ 0` else `0`; and `S ≥ 0` always holds. -/
theorem c7_qpoc (sys : ElectricalSystem) (P Q : ℝ) (hU : sys.UPoc ≠ 0)
    (hfC : sys.C = 0 ∨ sys.f ≠ 0) :
    sys.ComputeQPoc P Q
      = some (Q + ((sys.ComputeS P Q / sys.UPoc) ^ 2
            * (2 * Real.pi * sys.f * sys.L)
          - (sys.ComputeS P Q / sys.UPoc) ^ 2
            * (if sys.C = 0 then 0 else 1 / (2 * Real.pi * sys.f * sys.C))))
    ∧ 0 ≤ sys.ComputeS P Q
    ∧ sys.ComputeS P Q = Real.sqrt (P ^ 2 + Q ^ 2) := by
  refine ⟨?_, Real.sqrt_nonneg _, rfl⟩
  by_cases hC : sys.C = 0
  · simp [ElectricalSystem.ComputeQPoc, ElectricalSystem.ComputeReactivePowerSys,
      fdiv, hU, hC]
  · have hf : sys.f ≠ 0 := hfC.resolve_left hC
    have hden : 2 * Real.pi * sys.f * sys.C ≠ 0 :=
      mul_ne_zero (mul_ne_zero (mul_ne_zero two_ne_zero Real.pi_ne_zero) hf) hC
    simp [ElectricalSystem.ComputeQPoc, ElectricalSystem.ComputeReactivePowerSys,
      fdiv, hU, hC, hden]

/-- Witness for C7 (amended) on the reference-like system
`L=1, C=0, R=0, f=50, U_poc=6700` at `P=3, Q_commanded=4`. -/
theorem c7_witness :
    (6700 : ℝ) ≠ 0
    ∧ 0 ≤ (ElectricalSystem.mk 1 0 0 50 6700).ComputeS 3 4 :=
  ⟨by norm_num,
    (c7_qpoc (ElectricalSystem.mk 1 0 0 50 6700) 3 4 (by norm_num)
      (Or.inl rfl)).2.1⟩
